import Mathlib

/-!
# Verification of the bpak package facade (`lib/pkg.c`, `lib/pkg_create.c`)

A shallow embedding of the bpak package-level operations:
header model and serialization, package open/locate, header write-back,
signature framing, payload/header digest computation, file-part insertion
and the transport decode driver, together with theorems settling the
claims about them.

Streams are modelled as byte lists with an explicit position.  The
cryptographic digest back-ends (mbedtls SHA-256/384/512) are external to
the repository; following the specification, a digest is represented by
the exact byte transcript fed to it, so two digests are equal exactly
when the same bytes were fed to the same algorithm.
-/

set_option maxRecDepth 16384

namespace Bpak

/-! ## Error codes

Modelled from the spec: the error taxonomy of section 7 (the numeric
values of `bpak.h` are not in the sources; only distinctness and sign
conventions matter).  The C functions return `BPAK_OK` (0) on success
and negated error constants on failure. -/

def BPAK_OK : Int := 0
def BPAK_FAILED : Int := 1
def BPAK_NOT_FOUND : Int := 2
def BPAK_INVALID_HEADER : Int := 3
def BPAK_NO_SPACE : Int := 4
def BPAK_EXISTS : Int := 5
def BPAK_READ_ERROR : Int := 6
def BPAK_WRITE_ERROR : Int := 7
def BPAK_SEEK_ERROR : Int := 8
def BPAK_SIZE_ERROR : Int := 9
def BPAK_NOT_SUPPORTED : Int := 10

/-! ## Hash and flag constants

Modelled from the spec: `hash_kind` enum {SHA256=1, SHA384=2, SHA512=3}
(section 3) and the two per-part flag bits (`TRANSPORT`,
`EXCLUDE_FROM_HASH`); `bpak.h` with the exact bit positions is not in
the sources, so the two flags are assigned distinct bits. -/

def BPAK_HASH_SHA256 : Nat := 1
def BPAK_HASH_SHA384 : Nat := 2
def BPAK_HASH_SHA512 : Nat := 3

def BPAK_FLAG_TRANSPORT : Nat := 1
def BPAK_FLAG_EXCLUDE_FROM_HASH : Nat := 2

def BPAK_PART_ALIGN : Nat := 4096

/-! ## Little-endian field codecs -/

/-- Encode `x` as `n` little-endian bytes (truncating, as a C `memcpy`
of a fixed-width field does). -/
def encLE : Nat → Nat → List Nat
  | 0, _ => []
  | n + 1, x => (x % 256) :: encLE n (x / 256)

/-- Decode a little-endian byte list into a natural number. -/
def decLE : List Nat → Nat
  | [] => 0
  | b :: bs => b + 256 * decLE bs

theorem encLE_length (n x : Nat) : (encLE n x).length = n := by
  induction n generalizing x with
  | zero => rfl
  | succ n ih => simp [encLE, ih]

theorem decLE_encLE (n x : Nat) : decLE (encLE n x) = x % 256 ^ n := by
  induction n generalizing x with
  | zero => simp [encLE, decLE, Nat.mod_one]
  | succ n ih =>
    simp only [encLE, decLE, ih]
    rw [pow_succ, Nat.mul_comm (256 ^ n) 256, Nat.mod_mul]

theorem decLE_encLE_of_lt {n x : Nat} (h : x < 256 ^ n) :
    decLE (encLE n x) = x := by
  rw [decLE_encLE, Nat.mod_eq_of_lt h]

/-! ## Header data model

Modelled from the spec: the fixed-size 4096-byte header of section 3
(`bpak.h` itself is not among the sources).  Field widths follow the
spec where it gives them; `pad_bytes` is kept as an unbounded natural in
memory because the header invariants and scenario S3 require values up
to `alignment - 1 = 4095`. -/

structure BpakPartHeader where
  id : Nat
  size : Nat
  transport_size : Nat
  offset : Nat
  pad_bytes : Nat
  flags : Nat
deriving DecidableEq, Repr

structure BpakMetaHeader where
  id : Nat
  part_id_ref : Nat
  data_offset : Nat
  size : Nat
deriving DecidableEq, Repr

structure BpakHeader where
  magic : List Nat
  version : Nat
  hash_kind : Nat
  signature_kind : Nat
  payload_hash : List Nat
  signature : List Nat
  signature_sz : Nat
  keystore_id : Nat
  key_id : Nat
  alignment : Nat
  meta : List BpakMetaHeader
  metadata_pool : List Nat
  parts : List BpakPartHeader
deriving DecidableEq, Repr

def emptyPart : BpakPartHeader :=
  ⟨0, 0, 0, 0, 0, 0⟩

def emptyMeta : BpakMetaHeader :=
  ⟨0, 0, 0, 0⟩

def bpakMagic : List Nat := [0x4B, 0x41, 0x50, 0x42]

/-- The all-zero header a `memset(pkg, 0, ...)` leaves behind. -/
def zeroHeader : BpakHeader :=
  ⟨List.replicate 4 0, 0, 0, 0, List.replicate 64 0, List.replicate 512 0,
   0, 0, 0, 0, List.replicate 32 emptyMeta, List.replicate 2048 0,
   List.replicate 32 emptyPart⟩

/-- `bpak_part_size`, the on-disk byte count of a part.  Modelled from
the spec: section 4.3, "if flag `TRANSPORT`, `transport_size`, else
`size`" (the function lives in `lib/bpak.c`, not among the sources). -/
def bpak_part_size (p : BpakPartHeader) : Nat :=
  if p.flags &&& BPAK_FLAG_TRANSPORT ≠ 0 then p.transport_size else p.size

/-! ## Header serialization

Modelled from the spec: field order and table cardinalities of section 3
(32 meta slots of 12 bytes, a 2048-byte meta pool, 32 part slots of 30
bytes), zero padding to exactly 4096 bytes.  `serialize` is byte-exact
and deterministic as section 4.2 requires. -/

def encMeta (m : BpakMetaHeader) : List Nat :=
  encLE 4 m.id ++ (encLE 4 m.part_id_ref ++ (encLE 2 m.data_offset ++
    encLE 2 m.size))

def encPart (p : BpakPartHeader) : List Nat :=
  encLE 4 p.id ++ (encLE 8 p.size ++ (encLE 8 p.transport_size ++
    (encLE 8 p.offset ++ (encLE 1 p.pad_bytes ++ encLE 1 p.flags))))

/-- Serialize a header to its 4096-byte on-disk image. -/
def encHeader (h : BpakHeader) : List Nat :=
  h.magic ++ (encLE 4 h.version ++ (encLE 1 h.hash_kind ++
  (encLE 1 h.signature_kind ++ (encLE 2 0 ++ (h.payload_hash ++ (h.signature ++
  (encLE 2 h.signature_sz ++ (encLE 4 h.keystore_id ++ (encLE 4 h.key_id ++
  (encLE 4 h.alignment ++ ((h.meta.map encMeta).flatten ++ (h.metadata_pool ++
  ((h.parts.map encPart).flatten ++ List.replicate 102 0)))))))))))))

/-- Split a byte stream into `n` consecutive chunks of `k` bytes. -/
def splitChunks (k : Nat) : Nat → List Nat → List (List Nat)
  | 0, _ => []
  | n + 1, bytes => bytes.take k :: splitChunks k n (bytes.drop k)

def decMeta (c : List Nat) : BpakMetaHeader :=
  let id := decLE (c.take 4)
  let c1 := c.drop 4
  let part_id_ref := decLE (c1.take 4)
  let c2 := c1.drop 4
  let data_offset := decLE (c2.take 2)
  let c3 := c2.drop 2
  ⟨id, part_id_ref, data_offset, decLE (c3.take 2)⟩

def decPart (c : List Nat) : BpakPartHeader :=
  let id := decLE (c.take 4)
  let c1 := c.drop 4
  let size := decLE (c1.take 8)
  let c2 := c1.drop 8
  let transport_size := decLE (c2.take 8)
  let c3 := c2.drop 8
  let offset := decLE (c3.take 8)
  let c4 := c3.drop 8
  let pad_bytes := decLE (c4.take 1)
  let c5 := c4.drop 1
  ⟨id, size, transport_size, offset, pad_bytes, decLE (c5.take 1)⟩

/-- Parse a 4096-byte image into a header (the in-memory effect of
`fread` into a `struct bpak_header`). -/
def parseHeader (bytes : List Nat) : BpakHeader :=
  let b0 := bytes
  let magic := b0.take 4
  let b1 := b0.drop 4
  let version := decLE (b1.take 4)
  let b2 := b1.drop 4
  let hash_kind := decLE (b2.take 1)
  let b3 := b2.drop 1
  let signature_kind := decLE (b3.take 1)
  let b4 := (b3.drop 1).drop 2
  let payload_hash := b4.take 64
  let b5 := b4.drop 64
  let signature := b5.take 512
  let b6 := b5.drop 512
  let signature_sz := decLE (b6.take 2)
  let b7 := b6.drop 2
  let keystore_id := decLE (b7.take 4)
  let b8 := b7.drop 4
  let key_id := decLE (b8.take 4)
  let b9 := b8.drop 4
  let alignment := decLE (b9.take 4)
  let b10 := b9.drop 4
  let meta := (splitChunks 12 32 b10).map decMeta
  let b11 := b10.drop 384
  let pool := b11.take 2048
  let b12 := b11.drop 2048
  let parts := (splitChunks 30 32 b12).map decPart
  ⟨magic, version, hash_kind, signature_kind, payload_hash, signature,
   signature_sz, keystore_id, key_id, alignment, meta, pool, parts⟩

/-! ## Range predicates for round-tripping -/

def metaInRange (m : BpakMetaHeader) : Prop :=
  m.id < 256 ^ 4 ∧ m.part_id_ref < 256 ^ 4 ∧ m.data_offset < 256 ^ 2 ∧
  m.size < 256 ^ 2

def partInRange (p : BpakPartHeader) : Prop :=
  p.id < 256 ^ 4 ∧ p.size < 256 ^ 8 ∧ p.transport_size < 256 ^ 8 ∧
  p.offset < 256 ^ 8 ∧ p.pad_bytes < 256 ∧ p.flags < 256

/-- The header fits its on-disk field widths (lists have the fixed
lengths of the layout and the integer fields fit their widths). -/
def headerInRange (h : BpakHeader) : Prop :=
  h.magic.length = 4 ∧ h.version < 256 ^ 4 ∧ h.hash_kind < 256 ∧
  h.signature_kind < 256 ∧ h.payload_hash.length = 64 ∧
  h.signature.length = 512 ∧ h.signature_sz < 256 ^ 2 ∧
  h.keystore_id < 256 ^ 4 ∧ h.key_id < 256 ^ 4 ∧ h.alignment < 256 ^ 4 ∧
  h.meta.length = 32 ∧ (∀ m ∈ h.meta, metaInRange m) ∧
  h.metadata_pool.length = 2048 ∧
  h.parts.length = 32 ∧ (∀ p ∈ h.parts, partInRange p)

instance (m : BpakMetaHeader) : Decidable (metaInRange m) := by
  unfold metaInRange; infer_instance

instance (p : BpakPartHeader) : Decidable (partInRange p) := by
  unfold partInRange; infer_instance

instance (h : BpakHeader) : Decidable (headerInRange h) := by
  unfold headerInRange; infer_instance

/-! ## Serialization round-trip -/

theorem take_app (a b : List Nat) {n : Nat} (h : a.length = n) :
    (a ++ b).take n = a := List.take_left' h

theorem drop_app (a b : List Nat) {n : Nat} (h : a.length = n) :
    (a ++ b).drop n = b := List.drop_left' h

theorem encMeta_length (m : BpakMetaHeader) : (encMeta m).length = 12 := by
  simp [encMeta, encLE_length]

theorem encPart_length (p : BpakPartHeader) : (encPart p).length = 30 := by
  simp [encPart, encLE_length]

theorem flatten_map_length {α : Type} (k : Nat) (enc : α → List Nat)
    (hk : ∀ x, (enc x).length = k) (ms : List α) :
    ((ms.map enc).flatten).length = k * ms.length := by
  induction ms with
  | nil => simp
  | cons m ms ih =>
    simp only [List.map_cons, List.flatten_cons, List.length_append, hk, ih,
      List.length_cons]
    ring

theorem splitChunks_flatten {α : Type} (k : Nat) (enc : α → List Nat)
    (hk : ∀ x, (enc x).length = k) (ms : List α) (rest : List Nat) :
    splitChunks k ms.length ((ms.map enc).flatten ++ rest) = ms.map enc := by
  induction ms generalizing rest with
  | nil => rfl
  | cons m ms ih =>
    simp only [List.map_cons, List.flatten_cons, List.length_cons]
    rw [List.append_assoc]
    simp only [splitChunks]
    rw [take_app _ _ (hk m), drop_app _ _ (hk m), ih]

theorem splitChunks_flatten' {α : Type} (k n : Nat) (enc : α → List Nat)
    (hk : ∀ x, (enc x).length = k) (ms : List α) (rest : List Nat)
    (hn : ms.length = n) :
    splitChunks k n ((ms.map enc).flatten ++ rest) = ms.map enc := by
  subst hn; exact splitChunks_flatten k enc hk ms rest

theorem map_dec_enc {α : Type} (dec : List Nat → α) (enc : α → List Nat)
    (ms : List α) (h : ∀ m ∈ ms, dec (enc m) = m) :
    (ms.map enc).map dec = ms := by
  rw [List.map_map]
  have he : ms.map (dec ∘ enc) = ms.map id := List.map_congr_left h
  simpa using he

theorem take_all (a : List Nat) {n : Nat} (h : a.length = n) :
    a.take n = a := by
  subst h; exact List.take_length a

theorem decMeta_encMeta (m : BpakMetaHeader) (hm : metaInRange m) :
    decMeta (encMeta m) = m := by
  obtain ⟨id, ref, off, sz⟩ := m
  obtain ⟨h1, h2, h3, h4⟩ := hm
  simp only [encMeta, decMeta]
  rw [take_app _ _ (encLE_length 4 id), drop_app _ _ (encLE_length 4 id),
    take_app _ _ (encLE_length 4 ref), drop_app _ _ (encLE_length 4 ref),
    take_app _ _ (encLE_length 2 off), drop_app _ _ (encLE_length 2 off),
    take_all _ (encLE_length 2 sz),
    decLE_encLE_of_lt h1, decLE_encLE_of_lt h2, decLE_encLE_of_lt h3,
    decLE_encLE_of_lt h4]

theorem decPart_encPart (p : BpakPartHeader) (hp : partInRange p) :
    decPart (encPart p) = p := by
  obtain ⟨id, size, ts, off, pad, flags⟩ := p
  obtain ⟨h1, h2, h3, h4, h5, h6⟩ := hp
  simp only [encPart, decPart]
  rw [take_app _ _ (encLE_length 4 id), drop_app _ _ (encLE_length 4 id),
    take_app _ _ (encLE_length 8 size), drop_app _ _ (encLE_length 8 size),
    take_app _ _ (encLE_length 8 ts), drop_app _ _ (encLE_length 8 ts),
    take_app _ _ (encLE_length 8 off), drop_app _ _ (encLE_length 8 off),
    take_app _ _ (encLE_length 1 pad), drop_app _ _ (encLE_length 1 pad),
    take_all _ (encLE_length 1 flags),
    decLE_encLE_of_lt h1, decLE_encLE_of_lt h2, decLE_encLE_of_lt h3,
    decLE_encLE_of_lt h4, decLE_encLE_of_lt (by simpa using h5),
    decLE_encLE_of_lt (by simpa using h6)]

theorem encHeader_length (h : BpakHeader) (hr : headerInRange h) :
    (encHeader h).length = 4096 := by
  obtain ⟨r1, r2, r3, r4, r5, r6, r7, r8, r9, r10, r11, r12, r13, r14, r15⟩ := hr
  simp only [encHeader, List.length_append, encLE_length, r1, r5, r6, r13,
    List.length_replicate,
    flatten_map_length 12 encMeta encMeta_length h.meta,
    flatten_map_length 30 encPart encPart_length h.parts, r11, r14]

/-- Parsing the serialized image recovers the header: `serialize` is
byte-exact and `validate ∘ serialize` is the identity on in-range
headers. -/
theorem parseHeader_encHeader (h : BpakHeader) (hr : headerInRange h) :
    parseHeader (encHeader h) = h := by
  obtain ⟨magic, version, hk, sk, ph, sig, ssz, kid, keyid, align, meta, pool,
    parts⟩ := h
  obtain ⟨r1, r2, r3, r4, r5, r6, r7, r8, r9, r10, r11, r12, r13, r14, r15⟩ := hr
  simp only at r1 r2 r3 r4 r5 r6 r7 r8 r9 r10 r11 r12 r13 r14 r15
  have lm : ((meta.map encMeta).flatten).length = 384 := by
    rw [flatten_map_length 12 encMeta encMeta_length meta, r11]
  have lp : ((parts.map encPart).flatten).length = 960 := by
    rw [flatten_map_length 30 encPart encPart_length parts, r14]
  simp only [encHeader, parseHeader]
  rw [take_app _ _ r1, drop_app _ _ r1,
    take_app _ _ (encLE_length 4 version), drop_app _ _ (encLE_length 4 version),
    take_app _ _ (encLE_length 1 hk), drop_app _ _ (encLE_length 1 hk),
    take_app _ _ (encLE_length 1 sk), drop_app _ _ (encLE_length 1 sk),
    drop_app _ _ (encLE_length 2 0),
    take_app _ _ r5, drop_app _ _ r5,
    take_app _ _ r6, drop_app _ _ r6,
    take_app _ _ (encLE_length 2 ssz), drop_app _ _ (encLE_length 2 ssz),
    take_app _ _ (encLE_length 4 kid), drop_app _ _ (encLE_length 4 kid),
    take_app _ _ (encLE_length 4 keyid), drop_app _ _ (encLE_length 4 keyid),
    take_app _ _ (encLE_length 4 align), drop_app _ _ (encLE_length 4 align),
    splitChunks_flatten' 12 32 encMeta encMeta_length meta _ r11,
    drop_app _ _ lm,
    take_app _ _ r13, drop_app _ _ r13,
    splitChunks_flatten' 30 32 encPart encPart_length parts _ r14,
    map_dec_enc decMeta encMeta meta (fun m hm => decMeta_encMeta m (r12 m hm)),
    map_dec_enc decPart encPart parts (fun p hp => decPart_encPart p (r15 p hp)),
    decLE_encLE_of_lt r2, decLE_encLE_of_lt (by simpa using r3),
    decLE_encLE_of_lt (by simpa using r4), decLE_encLE_of_lt r7,
    decLE_encLE_of_lt r8, decLE_encLE_of_lt r9, decLE_encLE_of_lt r10]

/-! ## Byte-stream I/O

Modelled from the spec: the generic buffered file I/O wrapper
(`bpak_io_*`, explicitly an external collaborator in section 1) as a
random-access byte stream with a position.  A read returns the bytes
available at the position (possibly fewer than requested); per the
`locate` description of section 4.2, a seek relative to the end with
offset `k` positions at `end - k`. -/

/-- Truncated subtraction, kept opaque to reduction so that positions
such as `end - 4096` with a symbolic stream length stay compact. -/
def natSub (a b : Nat) : Nat := a - b

theorem natSub_eq (a b : Nat) : natSub a b = a - b := rfl

attribute [irreducible] natSub

structure BpakIo where
  data : List Nat
  pos : Nat
deriving DecidableEq, Repr

def bpak_io_read (io : BpakIo) (n : Nat) : List Nat × BpakIo :=
  let bytes := (io.data.drop io.pos).take n
  (bytes, { io with pos := io.pos + bytes.length })

def bpak_io_seek_set (io : BpakIo) (p : Nat) : BpakIo :=
  { io with pos := p }

def bpak_io_seek_end (io : BpakIo) (off : Nat) : BpakIo :=
  { io with pos := natSub io.data.length off }

def bpak_io_seek_fwd (io : BpakIo) (off : Nat) : BpakIo :=
  { io with pos := io.pos + off }

def bpak_io_write (io : BpakIo) (bytes : List Nat) : BpakIo :=
  { data := io.data.take io.pos ++ bytes ++ io.data.drop (io.pos + bytes.length),
    pos := io.pos + bytes.length }

/-! ## Header validation

Modelled from the spec: `bpak_valid_header` lives in `lib/bpak.c`, not
among the sources; section 4.2 says validate "rejects on bad magic,
unknown version, out-of-range kinds, invariants 3 - 6" (signature size
bound, zero-id slots only at the tails of the meta and part tables, meta
ranges inside the pool and mutually disjoint). -/

def tailZeroOnly : List Nat → Bool
  | [] => true
  | i :: rest => if i = 0 then rest.all (· = 0) else tailZeroOnly rest

def metaDisjoint (a b : BpakMetaHeader) : Bool :=
  a.data_offset + a.size ≤ b.data_offset ∨ b.data_offset + b.size ≤ a.data_offset

def metaPairwiseOk : List BpakMetaHeader → Bool
  | [] => true
  | m :: rest =>
    (rest.all fun m2 => m.id = 0 || m2.id = 0 || metaDisjoint m m2) &&
    metaPairwiseOk rest

def metaRangesOk (ms : List BpakMetaHeader) : Bool :=
  (ms.all fun m => m.id = 0 || decide (m.data_offset + m.size ≤ 2048)) &&
  metaPairwiseOk ms

def bpak_valid_header (h : BpakHeader) : Int :=
  if h.magic = bpakMagic ∧ h.version = 2 ∧
      (h.hash_kind = BPAK_HASH_SHA256 ∨ h.hash_kind = BPAK_HASH_SHA384 ∨
        h.hash_kind = BPAK_HASH_SHA512) ∧
      (1 ≤ h.signature_kind ∧ h.signature_kind ≤ 5) ∧
      h.signature_sz ≤ 512 ∧
      tailZeroOnly (h.meta.map (·.id)) = true ∧
      tailZeroOnly (h.parts.map (·.id)) = true ∧
      metaRangesOk h.meta = true
  then BPAK_OK else -BPAK_INVALID_HEADER

/-! ## Package -/

inductive HeaderPos where
  | first
  | last
deriving DecidableEq, Repr

structure BpakPackage where
  header : BpakHeader
  io : BpakIo
  header_location : HeaderPos
deriving DecidableEq, Repr

structure OpenResult where
  rc : Int
  pkg : Option BpakPackage
deriving DecidableEq, Repr

/-- `bpak_pkg_open` (`lib/pkg.c:19`).  Opens the stream, reads the first
4096 bytes, validates; if invalid, seeks to `end - 4096` and tries the
tail candidate; in all cases falls through `skip_header`, seeks back to
the start and returns `BPAK_OK`.  A short `fread` overwrites only the
bytes it read, the rest of the zero-initialized header stays. -/
def bpak_pkg_open (data : List Nat) (mode : Option String) : OpenResult :=
  match mode with
  | none => ⟨-BPAK_FAILED, none⟩
  | some _ =>
    let io0 : BpakIo := ⟨data, 0⟩
    let io1 := bpak_io_seek_set io0 0
    let r1 := bpak_io_read io1 4096
    let h1 := parseHeader (r1.1 ++ (encHeader zeroHeader).drop r1.1.length)
    if r1.1.length ≠ 4096 then
      ⟨BPAK_OK, some ⟨h1, bpak_io_seek_set r1.2 0, HeaderPos.first⟩⟩
    else if bpak_valid_header h1 = BPAK_OK then
      ⟨BPAK_OK, some ⟨h1, bpak_io_seek_set r1.2 0, HeaderPos.first⟩⟩
    else
      let io2 := bpak_io_seek_end r1.2 4096
      let r2 := bpak_io_read io2 4096
      let h2 := parseHeader (r2.1 ++ (encHeader h1).drop r2.1.length)
      if r2.1.length ≠ 4096 then
        ⟨BPAK_OK, some ⟨h2, bpak_io_seek_set r2.2 0, HeaderPos.first⟩⟩
      else if bpak_valid_header h2 = BPAK_OK then
        ⟨BPAK_OK, some ⟨h2, bpak_io_seek_set r2.2 0, HeaderPos.last⟩⟩
      else
        ⟨BPAK_OK, some ⟨h2, bpak_io_seek_set r2.2 0, HeaderPos.first⟩⟩

/-- `bpak_pkg_write_header` (`lib/pkg.c:296`): seek to the recorded
location (start, or `end - 4096` for a tail header) and write the
4096-byte serialized header. -/
def bpak_pkg_write_header (pkg : BpakPackage) : Int × BpakPackage :=
  let io :=
    match pkg.header_location with
    | HeaderPos.first => bpak_io_seek_set pkg.io 0
    | HeaderPos.last => bpak_io_seek_end pkg.io 4096
  let io2 := bpak_io_write io (encHeader pkg.header)
  (BPAK_OK, { pkg with io := io2 })

/-- `bpak_pkg_sign` (`lib/pkg.c:321`): zero the 512-byte signature slot,
copy the raw signature bytes over its start, record their count in
`signature_sz`, then write the header back. -/
def bpak_pkg_sign (pkg : BpakPackage) (signature : List Nat) :
    Int × BpakPackage :=
  let hz := { pkg.header with
    signature := signature ++ (List.replicate 512 0).drop signature.length,
    signature_sz := signature.length }
  bpak_pkg_write_header { pkg with header := hz }

/-- `bpak_pkg_installed_size` (`lib/pkg.c:262`): sum of `size + pad_bytes`
over the part table. -/
def bpak_pkg_installed_size (pkg : BpakPackage) : Nat :=
  pkg.header.parts.foldl (fun acc p => acc + p.size + p.pad_bytes) 0

/-! ## Digest engine

The SHA back-ends (mbedtls) are external; a digest context is modelled
by the transcript of bytes fed to it, and `digestOut` stands in for the
finalization, so equal transcripts with the same `hash_kind` give equal
digests. -/

/-- Digest byte length per `hash_kind`; `none` for an unrecognized kind. -/
def digestSize (kind : Nat) : Option Nat :=
  if kind = BPAK_HASH_SHA256 then some 32
  else if kind = BPAK_HASH_SHA384 then some 48
  else if kind = BPAK_HASH_SHA512 then some 64
  else none

/-- Modelled from the spec: external hash finalization; any fixed
function of the algorithm and the fed transcript. -/
def digestOut (kind : Nat) (fed : List Nat) : List Nat :=
  List.replicate ((digestSize kind).getD 0)
    (fed.foldl (fun a b => (a + b) % 256) 0)

structure PayloadHashResult where
  rc : Int
  io : BpakIo
  outSize : Nat
  fed : List Nat
deriving DecidableEq, Repr

/-- The `do { ... } while (bytes_to_read)` chunk loop of
`bpak_pkg_compute_payload_hash` (`lib/pkg.c:238-251`): request
`min(bytes_to_read, 512)` bytes into the 512-byte `hash_buffer` (a short
read leaves the rest of the buffer stale), feed `chunk` bytes of the
buffer to the digest, and decrement by `chunk` — not by the number of
bytes actually read. -/
def payloadChunkLoop (btr : Nat) (io : BpakIo) (buf fed : List Nat) :
    BpakIo × List Nat × List Nat :=
  let chunk := min btr 512
  let r := bpak_io_read io chunk
  let buf2 := r.1 ++ buf.drop r.1.length
  let fed2 := fed ++ buf2.take chunk
  if h : btr - chunk = 0 then (r.2, buf2, fed2)
  else payloadChunkLoop (btr - chunk) r.2 buf2 fed2
termination_by btr
decreasing_by simp only [chunk] at h ⊢; omega

/-- One part-table slot of the `bpak_foreach_part` loop of
`bpak_pkg_compute_payload_hash`: skip empty slots, seek past excluded
parts, otherwise run the chunk loop over `bpak_part_size` bytes. -/
def payloadPartStep (st : BpakIo × List Nat × List Nat) (p : BpakPartHeader) :
    BpakIo × List Nat × List Nat :=
  if p.id = 0 then st
  else if p.flags &&& BPAK_FLAG_EXCLUDE_FROM_HASH ≠ 0 then
    (bpak_io_seek_fwd st.1 (bpak_part_size p), st.2.1, st.2.2)
  else payloadChunkLoop (bpak_part_size p) st.1 st.2.1 st.2.2

/-- `bpak_pkg_compute_payload_hash` (`lib/pkg.c:183`): check the output
buffer against the digest size, seek just past the header (`FRONT`) or
to the start (`TAIL`), then walk the part table feeding the digest.  The
result of each `bpak_io_read` is ignored; the only error returns are the
buffer-size check and the unknown hash kind. -/
def bpak_pkg_compute_payload_hash (pkg : BpakPackage) (sizeArg : Nat) :
    PayloadHashResult :=
  match digestSize pkg.header.hash_kind with
  | none => ⟨-BPAK_NOT_SUPPORTED, pkg.io, sizeArg, []⟩
  | some d =>
    if sizeArg < d then ⟨-BPAK_FAILED, pkg.io, sizeArg, []⟩
    else
      let io0 :=
        match pkg.header_location with
        | HeaderPos.first => bpak_io_seek_set pkg.io 4096
        | HeaderPos.last => bpak_io_seek_set pkg.io 0
      let st := pkg.header.parts.foldl payloadPartStep
        (io0, List.replicate 512 0, [])
      ⟨BPAK_OK, st.1, d, st.2.2⟩

structure HeaderHashResult where
  rc : Int
  header : BpakHeader
  io : BpakIo
  outSize : Nat
  fed : List Nat
deriving DecidableEq, Repr

/-- `bpak_pkg_compute_header_hash` (`lib/pkg.c:113`): optionally refresh
`payload_hash` first (returning its error unchanged), save the signature
fields, zero them, select the digest by `hash_kind` (returning from
inside the switch on a short output buffer or an unknown kind — with the
signature still zeroed), feed the 4096-byte header image, restore the
signature fields and return `BPAK_OK`. -/
def bpak_pkg_compute_header_hash (pkg : BpakPackage) (sizeArg : Nat)
    (update_payload_hash : Bool) : HeaderHashResult :=
  let step : Int × BpakHeader × BpakIo :=
    if update_payload_hash then
      let pr := bpak_pkg_compute_payload_hash pkg 64
      if pr.rc ≠ BPAK_OK then (pr.rc, pkg.header, pr.io)
      else
        let nph := digestOut pkg.header.hash_kind pr.fed ++
          pkg.header.payload_hash.drop pr.outSize
        (BPAK_OK, { pkg.header with payload_hash := nph }, pr.io)
    else (BPAK_OK, pkg.header, pkg.io)
  if step.1 ≠ BPAK_OK then ⟨step.1, step.2.1, step.2.2, sizeArg, []⟩
  else
    let h1 := step.2.1
    let hz := { h1 with signature := List.replicate 512 0, signature_sz := 0 }
    match digestSize h1.hash_kind with
    | none => ⟨-BPAK_NOT_SUPPORTED, hz, step.2.2, sizeArg, []⟩
    | some d =>
      if sizeArg < d then ⟨-BPAK_FAILED, hz, step.2.2, sizeArg, []⟩
      else
        let fed := encHeader hz
        let hr := { hz with signature := h1.signature,
                            signature_sz := h1.signature_sz }
        ⟨BPAK_OK, hr, step.2.2, d, fed⟩

/-! ## Part insertion (`lib/pkg_create.c`) -/

/-- One step of a reflected CRC-32 (polynomial 0xEDB88320). -/
def crc32Byte (c b : Nat) : Nat :=
  let c0 := c ^^^ (b % 256)
  let f := fun x : Nat => if x % 2 = 1 then (x / 2) ^^^ 0xEDB88320 else x / 2
  f (f (f (f (f (f (f (f c0)))))))

/-- `bpak_id`: modelled from the spec (section 4.1): a reflected CRC-32
of the bytes of the name (`lib/crc.c` is not among the sources; all
names used here are ASCII). -/
def bpak_id (s : String) : Nat :=
  0xFFFFFFFF ^^^ (s.data.map Char.toNat).foldl crc32Byte 0xFFFFFFFF

/-- `bpak_add_part`: modelled from the spec (section 4.3): append into
the first empty part slot; `EXISTS` if a live slot already carries the
id, `NO_SPACE` if the table is full.  Returns the slot index. -/
def bpak_add_part (h : BpakHeader) (id : Nat) : Except Int Nat :=
  if h.parts.any fun p => p.id = id ∧ p.id ≠ 0 then Except.error (-BPAK_EXISTS)
  else
    match h.parts.findIdx? (fun p => p.id = 0) with
    | none => Except.error (-BPAK_NO_SPACE)
    | some i => Except.ok i

structure CopyState where
  btw : Nat
  inPos : Nat
  out : BpakIo
deriving DecidableEq, Repr

/-- One iteration of the `while (bytes_to_write)` copy loop of
`bpak_pkg_add_file` (`lib/pkg_create.c:272-279`): `fread` up to 512
bytes from the input file, `fwrite` them to the archive, and decrement
the remaining count by the number of bytes `fread` returned. -/
def fileCopyStep (src : List Nat) (st : CopyState) : CopyState :=
  let rd := (src.drop st.inPos).take 512
  { btw := st.btw - rd.length,
    inPos := st.inPos + rd.length,
    out := bpak_io_write st.out rd }

/-- The copy loop, driven by an iteration budget: returns the state and
whether the loop has exited (`bytes_to_write` reached zero) within
`fuel` iterations. -/
def fileCopyLoop (src : List Nat) : Nat → CopyState → CopyState × Bool
  | 0, st => (st, st.btw = 0)
  | fuel + 1, st =>
    if st.btw = 0 then (st, true)
    else fileCopyLoop src fuel (fileCopyStep src st)

structure AddFileResult where
  rc : Int
  header : BpakHeader
  io : BpakIo
  hung : Bool
deriving DecidableEq, Repr

/-- `bpak_pkg_add_file` (`lib/pkg_create.c:215`): stat the input file,
compute the append offset past the existing parts, claim a part slot,
fill in `size`, alignment padding and `offset`, copy the file bytes into
the archive, write the zero padding, refresh the payload hash and write
the header back.  The input file is its byte list, so `stat` reports its
length and the copy loop's budget of `size` iterations always suffices;
`hung` records the (here unreachable) case of the budget running out
with bytes still to write. -/
def bpak_pkg_add_file (pkg : BpakPackage) (fileBytes : List Nat)
    (part_name : String) (flags : Nat) : AddFileResult :=
  let h := pkg.header
  let st_size := fileBytes.length
  let new_offset := 4096 + h.parts.foldl (fun a p => a + (p.size + p.pad_bytes)) 0
  match bpak_add_part h (bpak_id part_name) with
  | Except.error rc => ⟨rc, h, pkg.io, false⟩
  | Except.ok i =>
    let pad := if st_size % BPAK_PART_ALIGN ≠ 0 then
      BPAK_PART_ALIGN - st_size % BPAK_PART_ALIGN else 0
    let p : BpakPartHeader :=
      ⟨bpak_id part_name, st_size, 0, new_offset, pad, flags⟩
    let h2 := { h with parts := h.parts.set i p }
    let io := bpak_io_seek_set pkg.io new_offset
    let r := fileCopyLoop fileBytes st_size ⟨st_size, 0, io⟩
    if ¬ r.2 then ⟨-BPAK_WRITE_ERROR, h2, r.1.out, true⟩
    else
      let io2 := if pad ≠ 0 then bpak_io_write r.1.out (List.replicate pad 0)
        else r.1.out
      let pr := bpak_pkg_compute_payload_hash ⟨h2, io2, pkg.header_location⟩ 64
      if pr.rc ≠ BPAK_OK then ⟨-BPAK_FAILED, h2, pr.io, false⟩
      else
        let nph := digestOut h2.hash_kind pr.fed ++
          h2.payload_hash.drop pr.outSize
        let h3 := { h2 with payload_hash := nph }
        let wr := bpak_pkg_write_header ⟨h3, pr.io, pkg.header_location⟩
        ⟨wr.1, wr.2.header, wr.2.io, false⟩

/-! ## Transport decode driver (`lib/pkg.c:406`)

The per-part decoder back-ends (`bpak_transport_decode_*`, `lib/transport.c`)
are not among the sources.  Modelled from the spec: initialization
succeeds, and a part with no `bpak-transport` meta entry — the only case
exercised here — is copied verbatim (identity codec), reading the part's
on-disk bytes from the input in chunks of at most 4096 bytes and writing
them at the part's offset in the output.  What matters for the claims is
the driver loop of `lib/pkg.c:469-527`, which is modelled statement by
statement; `none` models the undefined behavior of dereferencing a NULL
`origin` pointer at the `origin->io` test (`lib/pkg.c:474`). -/

def bpak_get_part (h : BpakHeader) (id : Nat) : Option BpakPartHeader :=
  h.parts.find? fun p => p.id == id && p.id != 0

/-- Identity-codec chunk feed: `bpak_io_read` in ≤4096-byte chunks, a
short read is `-BPAK_READ_ERROR` (`lib/pkg.c:499-518`). -/
def decodeCopyLoop (btp : Nat) (inIo outIo : BpakIo) : Int × BpakIo × BpakIo :=
  if h : btp = 0 then (BPAK_OK, inIo, outIo)
  else
    let chunk := min btp 4096
    let r := bpak_io_read inIo chunk
    if r.1.length ≠ chunk then (-BPAK_READ_ERROR, r.2, outIo)
    else decodeCopyLoop (btp - chunk) r.2 (bpak_io_write outIo r.1)
termination_by btp
decreasing_by simp only [chunk] at *; omega

/-- The `bpak_foreach_part` loop of `bpak_pkg_transport_decode`: stop at
the first empty slot; for a live part the code first evaluates
`origin->io` — a NULL-pointer dereference (`none`) when no origin
package was given — and only then looks up the origin part and runs the
decoder. -/
def decodePartsLoop (origin : Option BpakPackage) :
    List BpakPartHeader → BpakIo → BpakIo → Option (Int × BpakIo)
  | [], _, outIo => some (BPAK_OK, outIo)
  | p :: rest, inIo, outIo =>
    if p.id = 0 then some (BPAK_OK, outIo)
    else
      match origin with
      | none => none
      | some opkg =>
        match bpak_get_part opkg.header p.id with
        | none => some (-BPAK_NOT_FOUND, outIo)
        | some _ =>
          let r := decodeCopyLoop (bpak_part_size p) inIo
            (bpak_io_seek_set outIo p.offset)
          if r.1 ≠ BPAK_OK then some (r.1, r.2.2)
          else decodePartsLoop origin rest r.2.1 r.2.2

def bpak_pkg_transport_decode (input output : BpakPackage)
    (origin : Option BpakPackage) : Option (Int × BpakIo) :=
  let inIo := bpak_io_seek_set input.io 4096
  decodePartsLoop origin input.header.parts inIo output.io

/-! ## Specification-side payload description

The payload-hash input as section 4.4 words it: the concatenation, in
part-table order, of `part_size(p)` bytes for every live part not
flagged `EXCLUDE_FROM_HASH`, with excluded parts seeked past and pad
bytes never included. -/

def expectedPayloadFed (data : List Nat) : Nat → List BpakPartHeader → List Nat
  | _, [] => []
  | pos, p :: rest =>
    if p.id = 0 then expectedPayloadFed data pos rest
    else if p.flags &&& BPAK_FLAG_EXCLUDE_FROM_HASH ≠ 0 then
      expectedPayloadFed data (pos + bpak_part_size p) rest
    else (data.drop pos).take (bpak_part_size p) ++
      expectedPayloadFed data (pos + bpak_part_size p) rest

/-- Total number of payload bytes the part walk advances over. -/
def partsSpanSum : List BpakPartHeader → Nat
  | [] => 0
  | p :: rest => (if p.id = 0 then 0 else bpak_part_size p) + partsSpanSum rest

/-- The offset at which the payload starts: just past the header for a
front header, the start of the stream for a tail header. -/
def payloadStart (pkg : BpakPackage) : Nat :=
  match pkg.header_location with
  | HeaderPos.first => 4096
  | HeaderPos.last => 0

/-! ## Parsing is insensitive to bytes past the 4096-byte image -/

theorem splitChunks_append (k : Nat) :
    ∀ (n : Nat) (a b : List Nat), k * n ≤ a.length →
      splitChunks k n (a ++ b) = splitChunks k n a := by
  intro n
  induction n with
  | zero => intro a b _; rfl
  | succ n ih =>
    intro a b hab
    have hm : k * (n + 1) = k * n + k := by ring
    have hk : k ≤ a.length := by omega
    simp only [splitChunks]
    rw [List.take_append_of_le_length hk, List.drop_append_of_le_length hk,
      ih (a.drop k) b (by simp; omega)]

theorem zeroHeader_inRange : headerInRange zeroHeader := by decide

theorem parseHeader_append (x y : List Nat) (hx : x.length = 4096) :
    parseHeader (x ++ y) = parseHeader x := by
  simp only [parseHeader]
  rw [List.take_append_of_le_length (by omega),
    List.drop_append_of_le_length (by omega : (4:Nat) ≤ x.length)]
  rw [List.take_append_of_le_length (by simp [hx]),
    List.drop_append_of_le_length (by simp [hx] : (4:Nat) ≤ (x.drop 4).length)]
  rw [List.take_append_of_le_length (by simp [hx]),
    List.drop_append_of_le_length
      (by simp [hx] : (1:Nat) ≤ ((x.drop 4).drop 4).length)]
  rw [List.take_append_of_le_length (by simp [hx]),
    List.drop_append_of_le_length
      (by simp [hx] : (1:Nat) ≤ (((x.drop 4).drop 4).drop 1).length)]
  rw [List.drop_append_of_le_length
      (by simp [hx] : (2:Nat) ≤ ((((x.drop 4).drop 4).drop 1).drop 1).length)]
  rw [List.take_append_of_le_length (by simp [hx]),
    List.drop_append_of_le_length
      (by simp [hx] :
        (64:Nat) ≤ (((((x.drop 4).drop 4).drop 1).drop 1).drop 2).length)]
  rw [List.take_append_of_le_length (by simp [hx]),
    List.drop_append_of_le_length
      (by simp [hx] :
        (512:Nat) ≤
          ((((((x.drop 4).drop 4).drop 1).drop 1).drop 2).drop 64).length)]
  rw [List.take_append_of_le_length (by simp [hx]),
    List.drop_append_of_le_length
      (by simp [hx] :
        (2:Nat) ≤
          (((((((x.drop 4).drop 4).drop 1).drop 1).drop 2).drop 64).drop
            512).length)]
  rw [List.take_append_of_le_length (by simp [hx]),
    List.drop_append_of_le_length
      (by simp [hx] :
        (4:Nat) ≤
          ((((((((x.drop 4).drop 4).drop 1).drop 1).drop 2).drop 64).drop
            512).drop 2).length)]
  rw [List.take_append_of_le_length (by simp [hx]),
    List.drop_append_of_le_length
      (by simp [hx] :
        (4:Nat) ≤
          (((((((((x.drop 4).drop 4).drop 1).drop 1).drop 2).drop 64).drop
            512).drop 2).drop 4).length)]
  rw [List.take_append_of_le_length (by simp [hx]),
    List.drop_append_of_le_length
      (by simp [hx] :
        (4:Nat) ≤
          ((((((((((x.drop 4).drop 4).drop 1).drop 1).drop 2).drop 64).drop
            512).drop 2).drop 4).drop 4).length)]
  rw [splitChunks_append 12 32 _ y (by simp [hx])]
  rw [List.drop_append_of_le_length
      (by simp [hx] :
        (384:Nat) ≤
          (((((((((((x.drop 4).drop 4).drop 1).drop 1).drop 2).drop 64).drop
            512).drop 2).drop 4).drop 4).drop 4).length)]
  rw [List.take_append_of_le_length (by simp [hx]),
    List.drop_append_of_le_length
      (by simp [hx] :
        (2048:Nat) ≤
          ((((((((((((x.drop 4).drop 4).drop 1).drop 1).drop 2).drop 64).drop
            512).drop 2).drop 4).drop 4).drop 4).drop 384).length)]
  rw [splitChunks_append 30 32 _ y (by simp [hx])]

/-! # Claims -/

/-! ## C2: opening a file with no valid header -/

/-- The all-zero 4096-byte candidate is rejected by validation (its
magic is zero, not `BPAK`). -/
theorem valid_header_zeros :
    bpak_valid_header (parseHeader (List.replicate 4096 0)) =
      -BPAK_INVALID_HEADER := by
  have hmagic : (parseHeader (List.replicate 4096 0)).magic =
      List.replicate 4 0 := by
    simp only [parseHeader]
    rw [List.take_replicate]
    norm_num
  unfold bpak_valid_header
  exact if_neg fun hc => by
    have h1 := hc.1
    rw [hmagic] at h1
    exact absurd h1 (by decide)

theorem valid_header_zeros_ne :
    bpak_valid_header (parseHeader (List.replicate 4096 0)) ≠ BPAK_OK := by
  rw [valid_header_zeros]
  decide

/-- Shared evaluation of `bpak_pkg_open` on a readable file both of
whose header candidates fail validation: the `skip_header` path returns
`BPAK_OK` with the (invalid) tail candidate parsed into the header and
the location left at `FRONT`. -/
theorem open_skip_header_core (data : List Nat) (m : String)
    (hlen : 4096 ≤ data.length)
    (hfront : bpak_valid_header (parseHeader (data.take 4096)) ≠ BPAK_OK)
    (htail : bpak_valid_header
      (parseHeader (data.drop (data.length - 4096))) ≠ BPAK_OK) :
    (bpak_pkg_open data (some m)).rc = BPAK_OK ∧
    (bpak_pkg_open data (some m)).pkg = some
      ⟨parseHeader (data.drop (data.length - 4096)), ⟨data, 0⟩,
        HeaderPos.first⟩ := by
  have hsub : natSub data.length 4096 = data.length - 4096 := natSub_eq _ _
  have hz4096 : (encHeader zeroHeader).length = 4096 :=
    encHeader_length zeroHeader zeroHeader_inRange
  simp only [bpak_pkg_open, bpak_io_seek_set, bpak_io_read, bpak_io_seek_end,
    List.drop_zero]
  have ht1 : (data.take 4096).length = 4096 := by
    simp [Nat.min_eq_left hlen]
  rw [ht1]
  have hpad : (encHeader zeroHeader).drop 4096 = [] :=
    List.drop_eq_nil_of_le (le_of_eq hz4096)
  rw [hpad, List.append_nil]
  simp only [ne_eq, not_true_eq_false, if_false, ite_false]
  rw [if_neg hfront]
  have hdl : (data.drop (natSub data.length 4096)).length = 4096 := by
    rw [List.length_drop, hsub]
    omega
  have ht2 : (data.drop (natSub data.length 4096)).take 4096 =
      data.drop (natSub data.length 4096) :=
    List.take_of_length_le (le_of_eq hdl)
  have htail' : bpak_valid_header
      (parseHeader (data.drop (natSub data.length 4096))) ≠ BPAK_OK := by
    rw [hsub]
    exact htail
  rw [ht2, hdl]
  rw [parseHeader_append _ _ hdl]
  simp only [ne_eq, not_true_eq_false, if_false, ite_false]
  rw [if_neg htail']
  refine ⟨rfl, ?_⟩
  rw [hsub]

/-- C2 counterexample: a 4096-byte all-zero file fails header validation
both at the front and at the tail, yet `bpak_pkg_open` in read mode
returns `BPAK_OK` — with the invalid parsed image left in `pkg->header`
— because the `skip_header` path discards the validation error and
returns success. -/
theorem open_invalid_header_returns_ok :
    (bpak_pkg_open (List.replicate 4096 0) (some "r")).rc = BPAK_OK ∧
    ((bpak_pkg_open (List.replicate 4096 0) (some "r")).pkg.map
      fun p => bpak_valid_header p.header) = some (-BPAK_INVALID_HEADER) := by
  have hfront : bpak_valid_header
      (parseHeader ((List.replicate 4096 0 : List Nat).take 4096)) ≠
        BPAK_OK := by
    rw [List.take_replicate, Nat.min_self]
    exact valid_header_zeros_ne
  have hdrop : (List.replicate 4096 0 : List Nat).drop
      ((List.replicate 4096 0 : List Nat).length - 4096) =
      List.replicate 4096 0 := by
    simp only [List.length_replicate, Nat.sub_self, List.drop_zero]
  have htail : bpak_valid_header
      (parseHeader ((List.replicate 4096 0 : List Nat).drop
        ((List.replicate 4096 0 : List Nat).length - 4096))) ≠ BPAK_OK := by
    rw [hdrop]
    exact valid_header_zeros_ne
  obtain ⟨h1, h2⟩ := open_skip_header_core (List.replicate 4096 0) "r"
    (by rw [List.length_replicate]) hfront htail
  refine ⟨h1, ?_⟩
  rw [h2]
  simp only [Option.map_some']
  rw [hdrop, valid_header_zeros]

/-- C2 amended: for every readable file whose first 4096 bytes and last
4096 bytes both fail header validation, `bpak_pkg_open` (in any mode)
still returns `BPAK_OK` — never `INVALID_HEADER` or `NOT_FOUND` — and
leaves the invalid tail candidate in `pkg->header` with the location
still recorded as `FRONT`. -/
theorem open_returns_ok_with_invalid_header (data : List Nat) (m : String)
    (hlen : 4096 ≤ data.length)
    (hfront : bpak_valid_header (parseHeader (data.take 4096)) ≠ BPAK_OK)
    (htail : bpak_valid_header
      (parseHeader (data.drop (data.length - 4096))) ≠ BPAK_OK) :
    (bpak_pkg_open data (some m)).rc = BPAK_OK ∧
    (bpak_pkg_open data (some m)).pkg = some
      ⟨parseHeader (data.drop (data.length - 4096)), ⟨data, 0⟩,
        HeaderPos.first⟩ :=
  open_skip_header_core data m hlen hfront htail

theorem open_returns_ok_with_invalid_header_witness :
    ((4096:Nat) ≤ (List.replicate 8192 0 : List Nat).length ∧
      bpak_valid_header
        (parseHeader ((List.replicate 8192 0 : List Nat).take 4096)) ≠ BPAK_OK ∧
      bpak_valid_header
        (parseHeader ((List.replicate 8192 0 : List Nat).drop
          ((List.replicate 8192 0 : List Nat).length - 4096))) ≠ BPAK_OK) ∧
    (bpak_pkg_open (List.replicate 8192 0) (some "rb+")).rc = BPAK_OK ∧
    (bpak_pkg_open (List.replicate 8192 0) (some "rb+")).pkg = some
      ⟨parseHeader ((List.replicate 8192 0 : List Nat).drop
          ((List.replicate 8192 0 : List Nat).length - 4096)),
        ⟨List.replicate 8192 0, 0⟩, HeaderPos.first⟩ :=
  ⟨⟨by rw [List.length_replicate]; norm_num,
    by
      rw [List.take_replicate, show min 4096 8192 = 4096 from by norm_num]
      exact valid_header_zeros_ne,
    by
      rw [List.length_replicate, List.drop_replicate,
        show (8192:Nat) - (8192 - 4096) = 4096 from by norm_num]
      exact valid_header_zeros_ne⟩,
    open_returns_ok_with_invalid_header (List.replicate 8192 0) "rb+"
      (by rw [List.length_replicate]; norm_num)
      (by
        rw [List.take_replicate, show min 4096 8192 = 4096 from by norm_num]
        exact valid_header_zeros_ne)
      (by
        rw [List.length_replicate, List.drop_replicate,
          show (8192:Nat) - (8192 - 4096) = 4096 from by norm_num]
        exact valid_header_zeros_ne)⟩

/-! ## C3: tail headers occupy the last 4096 bytes, write-back and
locate agree -/

/-- C3: for a package whose header is recorded at the tail,
`bpak_pkg_write_header` writes the 4096-byte header image at
`end - 4096`, leaving the file length unchanged, so the header occupies
exactly the last 4096 bytes; re-running `bpak_pkg_open` (whose locate
reads the tail candidate from the same `end - 4096`) finds the
identical header with location `TAIL` — provided the front 4096 bytes
do not themselves form a valid header, which locate prefers. -/
theorem tail_header_write_locate_roundtrip (pkg : BpakPackage)
    (hloc : pkg.header_location = HeaderPos.last)
    (hr : headerInRange pkg.header)
    (hv : bpak_valid_header pkg.header = BPAK_OK)
    (hlen : 4096 ≤ pkg.io.data.length)
    (hfront : bpak_valid_header (parseHeader
      ((pkg.io.data.take (pkg.io.data.length - 4096) ++
        encHeader pkg.header).take 4096)) ≠ BPAK_OK) :
    (bpak_pkg_write_header pkg).1 = BPAK_OK ∧
    (bpak_pkg_write_header pkg).2.io.data =
      pkg.io.data.take (pkg.io.data.length - 4096) ++ encHeader pkg.header ∧
    (bpak_pkg_write_header pkg).2.io.data.length = pkg.io.data.length ∧
    (bpak_pkg_write_header pkg).2.io.data.drop
      (pkg.io.data.length - 4096) = encHeader pkg.header ∧
    bpak_pkg_open (bpak_pkg_write_header pkg).2.io.data (some "r") =
      ⟨BPAK_OK,
        some ⟨pkg.header, ⟨(bpak_pkg_write_header pkg).2.io.data, 0⟩,
          HeaderPos.last⟩⟩ := by
  obtain ⟨hdr, ⟨data, pos⟩, loc⟩ := pkg
  simp only at hloc
  subst hloc
  simp only at hr hv hlen hfront ⊢
  have henc : (encHeader hdr).length = 4096 := encHeader_length hdr hr
  have hsub : natSub data.length 4096 = data.length - 4096 := natSub_eq _ _
  have htk : (data.take (data.length - 4096)).length = data.length - 4096 := by
    rw [List.length_take]
    omega
  have hW : bpak_pkg_write_header ⟨hdr, ⟨data, pos⟩, HeaderPos.last⟩ =
      (BPAK_OK, ⟨hdr, ⟨data.take (data.length - 4096) ++ encHeader hdr,
        data.length - 4096 + 4096⟩, HeaderPos.last⟩) := by
    simp only [bpak_pkg_write_header, bpak_io_seek_end, bpak_io_write, henc,
      hsub]
    rw [show data.length - 4096 + 4096 = data.length by omega,
      List.drop_length, List.append_nil]
  rw [hW]
  have hDlen : (data.take (data.length - 4096) ++ encHeader hdr).length =
      data.length := by
    rw [List.length_append, htk, henc]
    omega
  have hdropD : (data.take (data.length - 4096) ++
      encHeader hdr).drop (data.length - 4096) = encHeader hdr :=
    drop_app _ _ htk
  refine ⟨rfl, rfl, hDlen, hdropD, ?_⟩
  have hsubD : natSub (data.take (data.length - 4096) ++
      encHeader hdr).length 4096 = data.length - 4096 := by
    rw [natSub_eq, hDlen]
  generalize hG : data.length - 4096 = G
  rw [hG] at hDlen hdropD hsubD hfront
  simp only [bpak_pkg_open, bpak_io_seek_set, bpak_io_read, bpak_io_seek_end,
    List.drop_zero]
  have ht1 : ((data.take G ++ encHeader hdr).take 4096).length = 4096 := by
    rw [List.length_take, hDlen]
    omega
  rw [ht1]
  rw [List.drop_eq_nil_of_le
    (le_of_eq (encHeader_length zeroHeader zeroHeader_inRange)),
    List.append_nil]
  simp only [ne_eq, not_true_eq_false, if_false, ite_false]
  rw [if_neg hfront, hsubD, hdropD,
    List.take_of_length_le (le_of_eq henc), henc,
    parseHeader_append _ _ henc, parseHeader_encHeader hdr hr]
  simp only [ne_eq, not_true_eq_false, if_false, ite_false]
  rw [if_pos hv]

/-- A concrete tail-header package: 4096 bytes of zero payload followed
by the serialized header of a fresh sha256 archive. -/
def tailDemoHeader : BpakHeader :=
  { zeroHeader with
    magic := bpakMagic
    version := 2
    hash_kind := BPAK_HASH_SHA256
    signature_kind := 1 }

def tailDemoPkg : BpakPackage :=
  ⟨tailDemoHeader, ⟨List.replicate 4096 0 ++ encHeader tailDemoHeader, 0⟩,
   HeaderPos.last⟩

theorem tailDemoHeader_inRange : headerInRange tailDemoHeader := by
  obtain ⟨z1, z2, z3, z4, z5, z6, z7, z8, z9, z10, z11, z12, z13, z14, z15⟩ :=
    zeroHeader_inRange
  exact ⟨by decide, by decide, by decide, by decide, z5, z6, by decide,
    by decide, by decide, by decide, z11, z12, z13, z14, z15⟩

theorem tailDemoPkg_data_length : tailDemoPkg.io.data.length = 8192 := by
  show (List.replicate 4096 0 ++ encHeader tailDemoHeader).length = 8192
  rw [List.length_append, List.length_replicate,
    encHeader_length tailDemoHeader tailDemoHeader_inRange]

theorem tailDemoPkg_front_invalid :
    bpak_valid_header (parseHeader
      ((tailDemoPkg.io.data.take (tailDemoPkg.io.data.length - 4096) ++
        encHeader tailDemoPkg.header).take 4096)) ≠ BPAK_OK := by
  have h1 : tailDemoPkg.io.data.take (tailDemoPkg.io.data.length - 4096) =
      List.replicate 4096 0 := by
    rw [tailDemoPkg_data_length]
    show (List.replicate 4096 0 ++ encHeader tailDemoHeader).take (8192 - 4096) =
      List.replicate 4096 0
    rw [show (8192:Nat) - 4096 = 4096 from by norm_num,
      List.take_append_of_le_length (by rw [List.length_replicate]),
      List.take_replicate, Nat.min_self]
  rw [h1, List.take_append_of_le_length (by rw [List.length_replicate]),
    List.take_replicate, Nat.min_self]
  exact valid_header_zeros_ne

theorem tail_header_write_locate_roundtrip_witness :
    (tailDemoPkg.header_location = HeaderPos.last ∧
      headerInRange tailDemoPkg.header ∧
      bpak_valid_header tailDemoPkg.header = BPAK_OK ∧
      4096 ≤ tailDemoPkg.io.data.length ∧
      bpak_valid_header (parseHeader
        ((tailDemoPkg.io.data.take (tailDemoPkg.io.data.length - 4096) ++
          encHeader tailDemoPkg.header).take 4096)) ≠ BPAK_OK) ∧
    ((bpak_pkg_write_header tailDemoPkg).1 = BPAK_OK ∧
      (bpak_pkg_write_header tailDemoPkg).2.io.data =
        tailDemoPkg.io.data.take (tailDemoPkg.io.data.length - 4096) ++
          encHeader tailDemoPkg.header ∧
      (bpak_pkg_write_header tailDemoPkg).2.io.data.length =
        tailDemoPkg.io.data.length ∧
      (bpak_pkg_write_header tailDemoPkg).2.io.data.drop
        (tailDemoPkg.io.data.length - 4096) = encHeader tailDemoPkg.header ∧
      bpak_pkg_open (bpak_pkg_write_header tailDemoPkg).2.io.data (some "r") =
        ⟨BPAK_OK,
          some ⟨tailDemoPkg.header,
            ⟨(bpak_pkg_write_header tailDemoPkg).2.io.data, 0⟩,
            HeaderPos.last⟩⟩) :=
  ⟨⟨rfl, tailDemoHeader_inRange, by decide,
    by rw [tailDemoPkg_data_length]; norm_num, tailDemoPkg_front_invalid⟩,
    tail_header_write_locate_roundtrip tailDemoPkg rfl tailDemoHeader_inRange
      (by decide) (by rw [tailDemoPkg_data_length]; norm_num)
      tailDemoPkg_front_invalid⟩

/-! ## C4: the payload hash feeds exactly the expected bytes -/

/-- With enough data in the stream, the chunk loop reads exactly `btr`
bytes from the current position (in chunks of at most 512 bytes) and
feeds all of them, in order, to the digest. -/
theorem payloadChunkLoop_full :
    ∀ (btr : Nat) (io : BpakIo) (buf fed : List Nat),
      io.pos + btr ≤ io.data.length →
      ∃ buf2, payloadChunkLoop btr io buf fed =
        (⟨io.data, io.pos + btr⟩, buf2,
          fed ++ (io.data.drop io.pos).take btr) := by
  intro btr
  induction btr using Nat.strong_induction_on with
  | _ btr ih =>
    intro io buf fed h
    obtain ⟨data, pos⟩ := io
    simp only at h
    rw [payloadChunkLoop.eq_def]
    have hread : ((data.drop pos).take (min btr 512)).length = min btr 512 := by
      simp only [List.length_take, List.length_drop]
      omega
    simp only [bpak_io_read, hread]
    split
    · rename_i hz
      have hbtr : min btr 512 = btr := by omega
      rw [hbtr] at hread ⊢
      refine ⟨(data.drop pos).take btr ++ buf.drop btr, ?_⟩
      rw [take_app _ _ hread]
    · rename_i hz
      have h512 : min btr 512 = 512 := by omega
      rw [h512] at hread ⊢
      obtain ⟨buf3, heq⟩ := ih (btr - 512) (by omega) ⟨data, pos + 512⟩
        ((data.drop pos).take 512 ++ buf.drop 512)
        (fed ++ ((data.drop pos).take 512 ++ buf.drop 512).take 512)
        (by simp only; omega)
      refine ⟨buf3, ?_⟩
      rw [heq, take_app _ _ hread, List.append_assoc,
        show data.drop (pos + 512) = (data.drop pos).drop 512 from
          (List.drop_drop 512 pos data).symm,
        ← List.take_add,
        show (512:Nat) + (btr - 512) = btr by omega,
        show pos + 512 + (btr - 512) = pos + btr by omega]

/-- With enough data in the stream, the part walk of the payload hash
advances the position by the total span of the live parts and feeds the
digest exactly the spec-side concatenation `expectedPayloadFed`. -/
theorem payload_fold_full (data : List Nat) :
    ∀ (parts : List BpakPartHeader) (pos : Nat) (buf fed : List Nat),
      pos + partsSpanSum parts ≤ data.length →
      ∃ buf2, parts.foldl payloadPartStep (⟨data, pos⟩, buf, fed) =
        (⟨data, pos + partsSpanSum parts⟩, buf2,
          fed ++ expectedPayloadFed data pos parts) := by
  intro parts
  induction parts with
  | nil =>
    intro pos buf fed _
    exact ⟨buf, by simp [partsSpanSum, expectedPayloadFed]⟩
  | cons p rest ih =>
    intro pos buf fed h
    simp only [partsSpanSum] at h
    simp only [List.foldl_cons, payloadPartStep, partsSpanSum,
      expectedPayloadFed]
    by_cases hid : p.id = 0
    · simp only [hid, if_true, eq_self_iff_true]
      obtain ⟨buf2, heq⟩ := ih pos buf fed (by simp [hid] at h; omega)
      refine ⟨buf2, ?_⟩
      rw [heq]
      simp [hid]
    · simp only [hid, if_false]
      by_cases hex : p.flags &&& BPAK_FLAG_EXCLUDE_FROM_HASH ≠ 0
      · simp only [bpak_io_seek_fwd]
        rw [if_pos hex]
        obtain ⟨buf2, heq⟩ := ih (pos + bpak_part_size p) buf fed
          (by simp [hid] at h; omega)
        refine ⟨buf2, ?_⟩
        rw [heq, if_pos hex, Nat.add_assoc]
      · rw [if_neg hex]
        obtain ⟨buf2, heq1⟩ := payloadChunkLoop_full (bpak_part_size p)
          ⟨data, pos⟩ buf fed (by simp only; simp [hid] at h; omega)
        rw [heq1]
        obtain ⟨buf3, heq2⟩ := ih (pos + bpak_part_size p) buf2
          (fed ++ (data.drop pos).take (bpak_part_size p))
          (by simp [hid] at h; omega)
        refine ⟨buf3, ?_⟩
        rw [heq2, if_neg hex, Nat.add_assoc, List.append_assoc]

/-- C4: with a recognized hash kind, a large enough output buffer and a
stream holding the payload, `bpak_pkg_compute_payload_hash` feeds the
digest exactly the concatenation, in part-table order, of
`bpak_part_size p` bytes for every live non-excluded part — reading
starts just past the 4096-byte header for a `FRONT` header and at
offset 0 for `TAIL`, excluded parts are seeked past without feeding,
and `pad_bytes` are never fed (`expectedPayloadFed` takes exactly
`bpak_part_size p` bytes per part). -/
theorem payload_hash_feeds_expected_bytes (pkg : BpakPackage)
    (sizeArg d : Nat)
    (hd : digestSize pkg.header.hash_kind = some d) (hs : d ≤ sizeArg)
    (hdata : payloadStart pkg + partsSpanSum pkg.header.parts ≤
      pkg.io.data.length) :
    bpak_pkg_compute_payload_hash pkg sizeArg =
      ⟨BPAK_OK,
        ⟨pkg.io.data, payloadStart pkg + partsSpanSum pkg.header.parts⟩, d,
        expectedPayloadFed pkg.io.data (payloadStart pkg) pkg.header.parts⟩ := by
  obtain ⟨hdr, ⟨data, pos⟩, loc⟩ := pkg
  simp only [payloadStart] at hdata ⊢
  simp only at hd
  simp only [bpak_pkg_compute_payload_hash, hd]
  rw [if_neg (Nat.not_lt.mpr hs)]
  cases loc with
  | first =>
    simp only [bpak_io_seek_set] at hdata ⊢
    obtain ⟨buf2, heq⟩ := payload_fold_full data hdr.parts 4096
      (List.replicate 512 0) [] hdata
    rw [heq]
    simp
  | last =>
    simp only [bpak_io_seek_set] at hdata ⊢
    obtain ⟨buf2, heq⟩ := payload_fold_full data hdr.parts 0
      (List.replicate 512 0) [] hdata
    rw [heq]
    simp

/-- A front-header package with three parts — a 5-byte live part, a
3-byte part excluded from hashing, a 4-byte live part — and a stream
long enough for all of them. -/
def payloadDemoPkg : BpakPackage :=
  let p1 : BpakPartHeader := ⟨1, 5, 0, 4096, 0, 0⟩
  let p2 : BpakPartHeader := ⟨2, 3, 0, 4101, 0, BPAK_FLAG_EXCLUDE_FROM_HASH⟩
  let p3 : BpakPartHeader := ⟨3, 4, 0, 4104, 0, 0⟩
  let h := { zeroHeader with
    hash_kind := BPAK_HASH_SHA256,
    parts := p1 :: p2 :: p3 :: List.replicate 29 emptyPart }
  ⟨h, ⟨List.replicate 4112 1, 0⟩, HeaderPos.first⟩

theorem payload_hash_feeds_expected_bytes_witness :
    (digestSize payloadDemoPkg.header.hash_kind = some 32 ∧ 32 ≤ 64 ∧
      payloadStart payloadDemoPkg + partsSpanSum payloadDemoPkg.header.parts ≤
        payloadDemoPkg.io.data.length) ∧
    bpak_pkg_compute_payload_hash payloadDemoPkg 64 =
      ⟨BPAK_OK,
        ⟨payloadDemoPkg.io.data,
          payloadStart payloadDemoPkg +
            partsSpanSum payloadDemoPkg.header.parts⟩, 32,
        expectedPayloadFed payloadDemoPkg.io.data
          (payloadStart payloadDemoPkg) payloadDemoPkg.header.parts⟩ :=
  ⟨⟨by decide, by decide,
    by
      show _ ≤ (List.replicate 4112 1 : List Nat).length
      rw [List.length_replicate]
      decide⟩,
    payload_hash_feeds_expected_bytes payloadDemoPkg 64 32 (by decide)
      (by decide)
      (by
        show _ ≤ (List.replicate 4112 1 : List Nat).length
        rw [List.length_replicate]
        decide)⟩

/-! ## C9: the payload hash never reports a read failure -/

/-- Once the hash kind is recognized and the output buffer is at least
the digest size, `bpak_pkg_compute_payload_hash` returns `BPAK_OK`. -/
theorem payload_hash_rc_ok (pkg : BpakPackage) (sizeArg d : Nat)
    (hd : digestSize pkg.header.hash_kind = some d) (hs : d ≤ sizeArg) :
    (bpak_pkg_compute_payload_hash pkg sizeArg).rc = BPAK_OK := by
  simp only [bpak_pkg_compute_payload_hash, hd]
  rw [if_neg (Nat.not_lt.mpr hs)]

/-- C9: `bpak_pkg_compute_payload_hash` ignores the return value of
every chunk read; for every package — including one whose stream
returns short reads or no data at all mid-payload — it returns `BPAK_OK`
as soon as the hash kind is recognized and the output buffer is large
enough, and in particular never returns `-BPAK_READ_ERROR`. -/
theorem payload_hash_never_read_error (pkg : BpakPackage) (sizeArg d : Nat)
    (hd : digestSize pkg.header.hash_kind = some d) (hs : d ≤ sizeArg) :
    (bpak_pkg_compute_payload_hash pkg sizeArg).rc = BPAK_OK ∧
    (bpak_pkg_compute_payload_hash pkg sizeArg).rc ≠ -BPAK_READ_ERROR := by
  have hrc := payload_hash_rc_ok pkg sizeArg d hd hs
  exact ⟨hrc, by rw [hrc]; decide⟩

/-- A package whose single live part claims 100 payload bytes while the
underlying stream is empty: every read returns 0 bytes. -/
def shortStreamPkg : BpakPackage :=
  let p : BpakPartHeader := ⟨1, 100, 0, 4096, 0, 0⟩
  let h := { zeroHeader with hash_kind := BPAK_HASH_SHA256,
                             parts := p :: List.replicate 31 emptyPart }
  ⟨h, ⟨[], 0⟩, HeaderPos.first⟩

theorem payload_hash_never_read_error_witness :
    digestSize shortStreamPkg.header.hash_kind = some 32 ∧ 32 ≤ 64 ∧
    (bpak_pkg_compute_payload_hash shortStreamPkg 64).rc = BPAK_OK ∧
    (bpak_pkg_compute_payload_hash shortStreamPkg 64).rc ≠ -BPAK_READ_ERROR :=
  ⟨by decide, by decide,
    payload_hash_never_read_error shortStreamPkg 64 32 (by decide) (by decide)⟩

/-! ## C10: the `add_file` byte-copy loop on a truncated input file -/

/-- C10: each iteration of the copy loop of `bpak_pkg_add_file`
decrements `bytes_to_write` by the number of bytes `fread` returned; if
the input file is exhausted (`fread` returns 0) while `bytes_to_write``
is still positive, no number of iterations ever reaches the exit
condition — the loop never terminates, and the remaining count never
changes. -/
theorem add_file_copy_loop_never_terminates (src : List Nat) (st : CopyState)
    (hpos : src.length ≤ st.inPos) (hbtw : 0 < st.btw) (n : Nat) :
    (fileCopyLoop src n st).2 = false ∧ (fileCopyLoop src n st).1.btw = st.btw := by
  induction n generalizing st with
  | zero =>
    refine ⟨?_, rfl⟩
    simp only [fileCopyLoop, decide_eq_false_iff_not]
    omega
  | succ n ih =>
    have hstep : fileCopyStep src st = st := by
      have hnil : src.drop st.inPos = [] := List.drop_eq_nil_of_le hpos
      simp [fileCopyStep, hnil, bpak_io_write, List.take_append_drop]
    simp only [fileCopyLoop, if_neg (Nat.pos_iff_ne_zero.mp hbtw), hstep]
    exact ih st hpos hbtw

theorem add_file_copy_loop_never_terminates_witness :
    (([] : List Nat).length ≤ 0 ∧ 0 < 10) ∧
    (fileCopyLoop [] 5 ⟨10, 0, ⟨[], 0⟩⟩).2 = false ∧
    (fileCopyLoop [] 5 ⟨10, 0, ⟨[], 0⟩⟩).1.btw = 10 :=
  ⟨⟨by decide, by decide⟩,
    add_file_copy_loop_never_terminates [] ⟨10, 0, ⟨[], 0⟩⟩ (by decide) (by decide) 5⟩

/-! ## C7: adding an 8193-byte file to a fresh archive -/

/-- When the input file really holds the stat-reported bytes, the copy
loop finishes within `size` iterations. -/
theorem fileCopyLoop_done (src : List Nat) :
    ∀ (fuel : Nat) (st : CopyState), st.btw ≤ fuel →
      st.inPos + st.btw = src.length →
      (fileCopyLoop src fuel st).2 = true := by
  intro fuel
  induction fuel with
  | zero =>
    intro st h1 h2
    have hz : st.btw = 0 := by omega
    simp [fileCopyLoop, hz]
  | succ n ih =>
    intro st h1 h2
    by_cases hz : st.btw = 0
    · simp [fileCopyLoop, hz]
    · simp only [fileCopyLoop, if_neg hz]
      have hrd : ((src.drop st.inPos).take 512).length = min 512 st.btw := by
        simp only [List.length_take, List.length_drop]
        omega
      apply ih
      · simp only [fileCopyStep, hrd]
        omega
      · simp only [fileCopyStep, hrd]
        omega

/-- The fresh archive `bpak create` leaves behind: a valid header with
no parts, serialized at the front of the stream. -/
def freshHeader : BpakHeader :=
  { zeroHeader with
    magic := bpakMagic
    version := 2
    hash_kind := BPAK_HASH_SHA256
    signature_kind := 1
    alignment := 4096 }

def freshPkg : BpakPackage :=
  ⟨freshHeader, ⟨encHeader freshHeader, 0⟩, HeaderPos.first⟩

/-- C7: adding a file of 8193 bytes as the first part of a fresh
archive yields a part with `size = 8193`, `pad_bytes = 4095`
(alignment 4096), `offset = 4096`, and the package's installed size —
the sum of `size + pad_bytes` over the part table — equals 12288;
the call itself returns `BPAK_OK`. -/
theorem add_file_8193_part_fields_and_installed_size (fileBytes : List Nat)
    (hlen : fileBytes.length = 8193) :
    (bpak_pkg_add_file freshPkg fileBytes "kernel" 0).rc = BPAK_OK ∧
    (bpak_pkg_add_file freshPkg fileBytes "kernel" 0).header.parts.head? =
      some ⟨bpak_id "kernel", 8193, 0, 4096, 4095, 0⟩ ∧
    bpak_pkg_installed_size
      ⟨(bpak_pkg_add_file freshPkg fileBytes "kernel" 0).header,
        (bpak_pkg_add_file freshPkg fileBytes "kernel" 0).io,
        HeaderPos.first⟩ = 12288 := by
  have hap : bpak_add_part freshPkg.header (bpak_id "kernel") =
      Except.ok 0 := rfl
  have hfold : freshPkg.header.parts.foldl
      (fun a p => a + (p.size + p.pad_bytes)) 0 = 0 := by decide
  simp only [bpak_pkg_add_file, hap, hlen, hfold]
  norm_num [BPAK_PART_ALIGN]
  split
  · rename_i hcopy
    have hdone := fileCopyLoop_done fileBytes 8193
      ⟨8193, 0, bpak_io_seek_set freshPkg.io 4096⟩ (le_refl 8193)
      (by show 0 + 8193 = fileBytes.length; omega)
    rw [hcopy] at hdone
    exact Bool.noConfusion hdone
  · split
    · have hset : freshPkg.header.parts.set 0
          (⟨bpak_id "kernel", 8193, 0, 4096, 4095, 0⟩ : BpakPartHeader) =
          ⟨bpak_id "kernel", 8193, 0, 4096, 4095, 0⟩ ::
            List.replicate 31 emptyPart := rfl
      refine ⟨rfl, ?_, ?_⟩
      · simp only [bpak_pkg_write_header]
        rw [hset]
        rfl
      · simp only [bpak_pkg_write_header, bpak_pkg_installed_size]
        rw [hset]
        decide
    · rename_i hpr
      exact absurd (payload_hash_rc_ok _ 64 32 (by rfl) (by norm_num)) hpr

theorem add_file_8193_part_fields_and_installed_size_witness :
    (List.replicate 8193 0 : List Nat).length = 8193 ∧
    ((bpak_pkg_add_file freshPkg (List.replicate 8193 0) "kernel" 0).rc =
        BPAK_OK ∧
      (bpak_pkg_add_file freshPkg (List.replicate 8193 0) "kernel"
          0).header.parts.head? =
        some ⟨bpak_id "kernel", 8193, 0, 4096, 4095, 0⟩ ∧
      bpak_pkg_installed_size
        ⟨(bpak_pkg_add_file freshPkg (List.replicate 8193 0) "kernel" 0).header,
          (bpak_pkg_add_file freshPkg (List.replicate 8193 0) "kernel" 0).io,
          HeaderPos.first⟩ = 12288) :=
  ⟨by rw [List.length_replicate],
    add_file_8193_part_fields_and_installed_size (List.replicate 8193 0)
      (by rw [List.length_replicate])⟩

/-! ## C8: transport decode with an absent origin package -/

def c8Input : BpakPackage :=
  let p : BpakPartHeader := ⟨1, 16, 0, 4096, 0, 0⟩
  let h := { zeroHeader with hash_kind := BPAK_HASH_SHA256,
                             parts := p :: List.replicate 31 emptyPart }
  ⟨h, ⟨List.replicate 4112 0, 0⟩, HeaderPos.first⟩

def c8Output : BpakPackage := ⟨zeroHeader, ⟨[], 0⟩, HeaderPos.first⟩

/-- C8: contrary to the claim, `bpak_pkg_transport_decode` does NOT
tolerate an absent origin: for an input package with a live part
(here a 16-byte part with id 1 and no transport metadata) the per-part
loop evaluates `origin->io` before checking whether an origin was given,
dereferencing the NULL pointer (`lib/pkg.c:474`) — modelled as the
faulting result `none`. -/
theorem transport_decode_null_origin_faults :
    (c8Input.header.parts.map (·.id)).head? = some 1 ∧
    bpak_pkg_transport_decode c8Input c8Output none = none := by
  constructor
  · decide
  · decide

/-! ## C1: header-hash failure paths and the signature fields -/

/-- Replace only the signature framing fields of a header. -/
def setSigFields (h : BpakHeader) (s : List Nat) (z : Nat) : BpakHeader :=
  { h with signature := s, signature_sz := z }

/-- Replace only the signature framing fields of a package's header. -/
def setSig (pkg : BpakPackage) (s : List Nat) (z : Nat) : BpakPackage :=
  { pkg with header := setSigFields pkg.header s z }

/-- The header as it stands once the optional payload-hash refresh of
`bpak_pkg_compute_header_hash` (`lib/pkg.c:122-132`) is past and has not
failed: `payload_hash` rewritten by the refresh when one was requested,
every other field untouched. -/
def headerAfterRefresh (pkg : BpakPackage) (upd : Bool) : BpakHeader :=
  if upd then
    let pr := bpak_pkg_compute_payload_hash pkg 64
    let nph := digestOut pkg.header.hash_kind pr.fed ++
      pkg.header.payload_hash.drop pr.outSize
    { pkg.header with payload_hash := nph }
  else pkg.header

/-- Restoring the pre-call `payload_hash` on the post-refresh header
gives back exactly the pre-call header: the refresh touches no other
field. -/
theorem headerAfterRefresh_frame (pkg : BpakPackage) (upd : Bool) :
    { headerAfterRefresh pkg upd with
        payload_hash := pkg.header.payload_hash } = pkg.header := by
  obtain ⟨⟨m, v, hk, sk, ph, sg, ssz, kid, kyd, al, me, mp, pa⟩, io, loc⟩ := pkg
  cases upd with
  | false => rfl
  | true => rfl

def pkgC1 : BpakPackage :=
  ⟨{ zeroHeader with hash_kind := 99, signature_sz := 7 }, ⟨[], 0⟩,
   HeaderPos.first⟩

/-- C1 counterexample: with an unrecognized `hash_kind` (and no payload
refresh requested) `bpak_pkg_compute_header_hash` fails with
`-BPAK_NOT_SUPPORTED` from inside the switch — after the signature
fields were zeroed and without restoring them: the pre-call
`signature_sz = 7` is lost, so the in-memory header does not hold its
pre-call values after this error return. -/
theorem header_hash_switch_error_mutates_signature :
    (bpak_pkg_compute_header_hash pkgC1 64 false).rc = -BPAK_NOT_SUPPORTED ∧
    pkgC1.header.signature_sz = 7 ∧
    (bpak_pkg_compute_header_hash pkgC1 64 false).header.signature_sz = 0 := by
  refine ⟨by decide, by decide, by decide⟩

/-- C1 amended: the effect of `bpak_pkg_compute_header_hash` on the
in-memory header, attributed to each return path.  (i) On success the
returned header is exactly the post-refresh header, so `signature` and
`signature_sz` hold their pre-call values.  (ii) A failed payload-hash
refresh is detected before the signature fields are saved: its error
code is passed through and the header is left fully unchanged.
(iii) An unrecognized `hash_kind` returns `-BPAK_NOT_SUPPORTED`, and
(iv) an output buffer shorter than the digest returns `-BPAK_FAILED`,
both from inside the switch with the header equal to the post-refresh
header with `signature` zeroed and `signature_sz = 0` — every other
field keeps its post-refresh value, which for `payload_hash` is not the
pre-call value when a requested refresh has already succeeded.
(v) With a recognized kind and a large enough buffer the call returns
`BPAK_OK`.  (vi) The post-refresh header differs from the pre-call
header at most in `payload_hash`. -/
theorem header_hash_signature_restore_amended (pkg : BpakPackage)
    (sizeArg : Nat) (upd : Bool) :
    ((bpak_pkg_compute_header_hash pkg sizeArg upd).rc = BPAK_OK →
      (bpak_pkg_compute_header_hash pkg sizeArg upd).header =
        headerAfterRefresh pkg upd ∧
      (bpak_pkg_compute_header_hash pkg sizeArg upd).header.signature =
        pkg.header.signature ∧
      (bpak_pkg_compute_header_hash pkg sizeArg upd).header.signature_sz =
        pkg.header.signature_sz) ∧
    (upd = true →
      (bpak_pkg_compute_payload_hash pkg 64).rc ≠ BPAK_OK →
      (bpak_pkg_compute_header_hash pkg sizeArg upd).rc =
        (bpak_pkg_compute_payload_hash pkg 64).rc ∧
      (bpak_pkg_compute_header_hash pkg sizeArg upd).header = pkg.header) ∧
    ((upd = true → (bpak_pkg_compute_payload_hash pkg 64).rc = BPAK_OK) →
      digestSize pkg.header.hash_kind = none →
      (bpak_pkg_compute_header_hash pkg sizeArg upd).rc =
        -BPAK_NOT_SUPPORTED ∧
      (bpak_pkg_compute_header_hash pkg sizeArg upd).header =
        setSigFields (headerAfterRefresh pkg upd) (List.replicate 512 0) 0) ∧
    ((upd = true → (bpak_pkg_compute_payload_hash pkg 64).rc = BPAK_OK) →
      ∀ d, digestSize pkg.header.hash_kind = some d → sizeArg < d →
        (bpak_pkg_compute_header_hash pkg sizeArg upd).rc = -BPAK_FAILED ∧
        (bpak_pkg_compute_header_hash pkg sizeArg upd).header =
          setSigFields (headerAfterRefresh pkg upd) (List.replicate 512 0) 0) ∧
    ((upd = true → (bpak_pkg_compute_payload_hash pkg 64).rc = BPAK_OK) →
      ∀ d, digestSize pkg.header.hash_kind = some d → d ≤ sizeArg →
        (bpak_pkg_compute_header_hash pkg sizeArg upd).rc = BPAK_OK) ∧
    { headerAfterRefresh pkg upd with
        payload_hash := pkg.header.payload_hash } = pkg.header := by
  cases upd with
  | false =>
    rcases hds : digestSize pkg.header.hash_kind with _ | d
    · have hrc : (bpak_pkg_compute_header_hash pkg sizeArg false).rc =
          -BPAK_NOT_SUPPORTED := by
        simp only [bpak_pkg_compute_header_hash, Bool.false_eq_true, if_false,
          ne_eq, eq_self_iff_true, not_true_eq_false, hds]
      have hhd : (bpak_pkg_compute_header_hash pkg sizeArg false).header =
          setSigFields (headerAfterRefresh pkg false)
            (List.replicate 512 0) 0 := by
        simp only [bpak_pkg_compute_header_hash, setSigFields,
          headerAfterRefresh, Bool.false_eq_true, if_false, ne_eq,
          eq_self_iff_true, not_true_eq_false, hds]
      refine ⟨?_, ?_, ?_, ?_, ?_, headerAfterRefresh_frame pkg false⟩
      · intro h
        rw [hrc] at h
        exact absurd h (by decide)
      · intro h
        exact Bool.noConfusion h
      · intro _ _
        exact ⟨hrc, hhd⟩
      · intro _ d' hd _
        exact Option.noConfusion hd
      · intro _ d' hd _
        exact Option.noConfusion hd
    · by_cases hsz : sizeArg < d
      · have hrc : (bpak_pkg_compute_header_hash pkg sizeArg false).rc =
            -BPAK_FAILED := by
          simp only [bpak_pkg_compute_header_hash, Bool.false_eq_true,
            if_false, ne_eq, eq_self_iff_true, not_true_eq_false, hds, hsz,
            if_true]
        have hhd : (bpak_pkg_compute_header_hash pkg sizeArg false).header =
            setSigFields (headerAfterRefresh pkg false)
              (List.replicate 512 0) 0 := by
          simp only [bpak_pkg_compute_header_hash, setSigFields,
            headerAfterRefresh, Bool.false_eq_true, if_false, ne_eq,
            eq_self_iff_true, not_true_eq_false, hds, hsz, if_true]
        refine ⟨?_, ?_, ?_, ?_, ?_, headerAfterRefresh_frame pkg false⟩
        · intro h
          rw [hrc] at h
          exact absurd h (by decide)
        · intro h
          exact Bool.noConfusion h
        · intro _ hn
          exact Option.noConfusion hn
        · intro _ d' hd _
          exact ⟨hrc, hhd⟩
        · intro _ d' hd hle
          injection hd with h
          exact absurd hsz (by omega)
      · have hrc : (bpak_pkg_compute_header_hash pkg sizeArg false).rc =
            BPAK_OK := by
          simp only [bpak_pkg_compute_header_hash, Bool.false_eq_true,
            if_false, ne_eq, eq_self_iff_true, not_true_eq_false, hds, hsz]
        have hhd : (bpak_pkg_compute_header_hash pkg sizeArg false).header =
            headerAfterRefresh pkg false := by
          simp only [bpak_pkg_compute_header_hash, headerAfterRefresh,
            Bool.false_eq_true, if_false, ne_eq, eq_self_iff_true,
            not_true_eq_false, hds, hsz]
        have hsig : (headerAfterRefresh pkg false).signature =
            pkg.header.signature := rfl
        have hssz : (headerAfterRefresh pkg false).signature_sz =
            pkg.header.signature_sz := rfl
        refine ⟨?_, ?_, ?_, ?_, ?_, headerAfterRefresh_frame pkg false⟩
        · intro _
          exact ⟨hhd, by rw [hhd, hsig], by rw [hhd, hssz]⟩
        · intro h
          exact Bool.noConfusion h
        · intro _ hn
          exact Option.noConfusion hn
        · intro _ d' hd hlt
          injection hd with h
          exact absurd hlt (by omega)
        · intro _ d' hd _
          exact hrc
  | true =>
    by_cases hpr : (bpak_pkg_compute_payload_hash pkg 64).rc = BPAK_OK
    · rcases hds : digestSize pkg.header.hash_kind with _ | d
      · have hrc : (bpak_pkg_compute_header_hash pkg sizeArg true).rc =
            -BPAK_NOT_SUPPORTED := by
          simp only [bpak_pkg_compute_header_hash, eq_self_iff_true, if_true,
            ne_eq, hpr, not_true_eq_false, if_false, hds]
        have hhd : (bpak_pkg_compute_header_hash pkg sizeArg true).header =
            setSigFields (headerAfterRefresh pkg true)
              (List.replicate 512 0) 0 := by
          simp only [bpak_pkg_compute_header_hash, headerAfterRefresh,
            setSigFields, eq_self_iff_true, if_true, ne_eq, hpr,
            not_true_eq_false, if_false, hds]
        refine ⟨?_, ?_, ?_, ?_, ?_, headerAfterRefresh_frame pkg true⟩
        · intro h
          rw [hrc] at h
          exact absurd h (by decide)
        · intro _ hne
          exact absurd hpr hne
        · intro _ _
          exact ⟨hrc, hhd⟩
        · intro _ d' hd _
          exact Option.noConfusion hd
        · intro _ d' hd _
          exact Option.noConfusion hd
      · by_cases hsz : sizeArg < d
        · have hrc : (bpak_pkg_compute_header_hash pkg sizeArg true).rc =
              -BPAK_FAILED := by
            simp only [bpak_pkg_compute_header_hash, eq_self_iff_true,
              if_true, ne_eq, hpr, not_true_eq_false, if_false, hds, hsz]
          have hhd : (bpak_pkg_compute_header_hash pkg sizeArg true).header =
              setSigFields (headerAfterRefresh pkg true)
                (List.replicate 512 0) 0 := by
            simp only [bpak_pkg_compute_header_hash, headerAfterRefresh,
              setSigFields, eq_self_iff_true, if_true, ne_eq, hpr,
              not_true_eq_false, if_false, hds, hsz]
          refine ⟨?_, ?_, ?_, ?_, ?_, headerAfterRefresh_frame pkg true⟩
          · intro h
            rw [hrc] at h
            exact absurd h (by decide)
          · intro _ hne
            exact absurd hpr hne
          · intro _ hn
            exact Option.noConfusion hn
          · intro _ d' hd _
            exact ⟨hrc, hhd⟩
          · intro _ d' hd hle
            injection hd with h
            exact absurd hsz (by omega)
        · have hrc : (bpak_pkg_compute_header_hash pkg sizeArg true).rc =
              BPAK_OK := by
            simp only [bpak_pkg_compute_header_hash, eq_self_iff_true,
              if_true, ne_eq, hpr, not_true_eq_false, if_false, hds, hsz]
          have hhd : (bpak_pkg_compute_header_hash pkg sizeArg true).header =
              headerAfterRefresh pkg true := by
            simp only [bpak_pkg_compute_header_hash, headerAfterRefresh,
              eq_self_iff_true, if_true, ne_eq, hpr, not_true_eq_false,
              if_false, hds, hsz]
          have hsig : (headerAfterRefresh pkg true).signature =
              pkg.header.signature := rfl
          have hssz : (headerAfterRefresh pkg true).signature_sz =
              pkg.header.signature_sz := rfl
          refine ⟨?_, ?_, ?_, ?_, ?_, headerAfterRefresh_frame pkg true⟩
          · intro _
            exact ⟨hhd, by rw [hhd, hsig], by rw [hhd, hssz]⟩
          · intro _ hne
            exact absurd hpr hne
          · intro _ hn
            exact Option.noConfusion hn
          · intro _ d' hd hlt
            injection hd with h
            exact absurd hlt (by omega)
          · intro _ d' hd _
            exact hrc
    · have hrc : (bpak_pkg_compute_header_hash pkg sizeArg true).rc =
          (bpak_pkg_compute_payload_hash pkg 64).rc := by
        simp only [bpak_pkg_compute_header_hash, eq_self_iff_true, if_true,
          ne_eq, hpr, not_false_eq_true]
      have hhd : (bpak_pkg_compute_header_hash pkg sizeArg true).header =
          pkg.header := by
        simp only [bpak_pkg_compute_header_hash, eq_self_iff_true, if_true,
          ne_eq, hpr, not_false_eq_true]
      refine ⟨?_, ?_, ?_, ?_, ?_, headerAfterRefresh_frame pkg true⟩
      · intro h
        rw [hrc] at h
        exact absurd h hpr
      · intro _ _
        exact ⟨hrc, hhd⟩
      · intro hok _
        exact absurd (hok rfl) hpr
      · intro hok d' _ _
        exact absurd (hok rfl) hpr
      · intro hok d' _ _
        exact absurd (hok rfl) hpr

/-! ## C5: hashes are invariant under signature mutation -/

/-- C5: for any archive and any two values of `signature` /
`signature_sz`, `bpak_pkg_compute_payload_hash` returns the identical
result (the payload walk never reads the signature slot), and
`bpak_pkg_compute_header_hash` feeds the digest the identical header
image — both fields are zeroed before hashing — so it returns the same
digest, return code and digest size. -/
theorem hashes_invariant_under_signature_mutation (pkg : BpakPackage)
    (s : List Nat) (z : Nat) (sizeArg : Nat) (upd : Bool) :
    bpak_pkg_compute_payload_hash (setSig pkg s z) sizeArg =
      bpak_pkg_compute_payload_hash pkg sizeArg ∧
    (bpak_pkg_compute_header_hash (setSig pkg s z) sizeArg upd).fed =
      (bpak_pkg_compute_header_hash pkg sizeArg upd).fed ∧
    (bpak_pkg_compute_header_hash (setSig pkg s z) sizeArg upd).rc =
      (bpak_pkg_compute_header_hash pkg sizeArg upd).rc ∧
    (bpak_pkg_compute_header_hash (setSig pkg s z) sizeArg upd).outSize =
      (bpak_pkg_compute_header_hash pkg sizeArg upd).outSize := by
  refine ⟨rfl, ?_⟩
  have hpl : bpak_pkg_compute_payload_hash (setSig pkg s z) 64 =
      bpak_pkg_compute_payload_hash pkg 64 := rfl
  unfold bpak_pkg_compute_header_hash
  rw [hpl]
  simp only [setSig, setSigFields]
  cases upd with
  | false =>
    simp only [Bool.false_eq_true, if_false]
    split
    · exact ⟨rfl, rfl, rfl⟩
    · split
      · exact ⟨rfl, rfl, rfl⟩
      · split
        · exact ⟨rfl, rfl, rfl⟩
        · exact ⟨rfl, rfl, rfl⟩
  | true =>
    simp only [if_true]
    split
    · exact ⟨rfl, rfl, rfl⟩
    · dsimp only
      split
      · exact ⟨rfl, rfl, rfl⟩
      · split
        · exact ⟨rfl, rfl, rfl⟩
        · split
          · exact ⟨rfl, rfl, rfl⟩
          · exact ⟨rfl, rfl, rfl⟩

/-! ## C6: signature framing by `bpak_pkg_sign` -/

/-- C6: for a raw signature of length at most 512, `bpak_pkg_sign`
leaves the header with the signature bytes left-aligned in the 512-byte
slot, the remainder zero, `signature_sz` equal to the byte count, every
other header field unchanged, and writes the serialized header back to
the stream at the recorded location. -/
theorem sign_frames_signature_and_writes_header (pkg : BpakPackage)
    (sig : List Nat) (hlen : sig.length ≤ 512) :
    (bpak_pkg_sign pkg sig).1 = BPAK_OK ∧
    (bpak_pkg_sign pkg sig).2.header.signature =
      sig ++ List.replicate (512 - sig.length) 0 ∧
    (bpak_pkg_sign pkg sig).2.header.signature_sz = sig.length ∧
    setSigFields (bpak_pkg_sign pkg sig).2.header pkg.header.signature
      pkg.header.signature_sz = pkg.header ∧
    (bpak_pkg_sign pkg sig).2.header_location = pkg.header_location ∧
    (pkg.header_location = HeaderPos.first →
      (bpak_pkg_sign pkg sig).2.io.data =
        encHeader (bpak_pkg_sign pkg sig).2.header ++
          pkg.io.data.drop (encHeader (bpak_pkg_sign pkg sig).2.header).length) := by
  refine ⟨rfl, ?_, rfl, rfl, rfl, ?_⟩
  · show sig ++ (List.replicate 512 0).drop sig.length = _
    rw [List.drop_replicate]
  · intro hloc
    simp only [bpak_pkg_sign, bpak_pkg_write_header, hloc, bpak_io_seek_set,
      bpak_io_write, List.take_zero, List.nil_append, Nat.zero_add]

def signDemoPkg : BpakPackage :=
  ⟨zeroHeader, ⟨List.replicate 4200 5, 0⟩, HeaderPos.first⟩

theorem sign_frames_signature_and_writes_header_witness :
    ([1, 2, 3] : List Nat).length ≤ 512 ∧
    ((bpak_pkg_sign signDemoPkg [1, 2, 3]).1 = BPAK_OK ∧
      (bpak_pkg_sign signDemoPkg [1, 2, 3]).2.header.signature =
        [1, 2, 3] ++ List.replicate (512 - ([1, 2, 3] : List Nat).length) 0 ∧
      (bpak_pkg_sign signDemoPkg [1, 2, 3]).2.header.signature_sz =
        ([1, 2, 3] : List Nat).length ∧
      setSigFields (bpak_pkg_sign signDemoPkg [1, 2, 3]).2.header
        signDemoPkg.header.signature signDemoPkg.header.signature_sz =
        signDemoPkg.header ∧
      (bpak_pkg_sign signDemoPkg [1, 2, 3]).2.header_location =
        signDemoPkg.header_location ∧
      (signDemoPkg.header_location = HeaderPos.first →
        (bpak_pkg_sign signDemoPkg [1, 2, 3]).2.io.data =
          encHeader (bpak_pkg_sign signDemoPkg [1, 2, 3]).2.header ++
            signDemoPkg.io.data.drop
              (encHeader (bpak_pkg_sign signDemoPkg [1, 2, 3]).2.header).length)) :=
  ⟨by decide, sign_frames_signature_and_writes_header signDemoPkg [1, 2, 3]
    (by decide)⟩

/-- C1 witness: at `pkgC1` (hash kind 99, no refresh requested) the
switch-error clause of the amended theorem fires concretely: the call
returns `-BPAK_NOT_SUPPORTED` with the signature fields zeroed on top of
the (here unrefreshed) pre-call header. -/
theorem header_hash_signature_restore_amended_witness :
    (bpak_pkg_compute_header_hash pkgC1 64 false).rc =
      -BPAK_NOT_SUPPORTED ∧
    (bpak_pkg_compute_header_hash pkgC1 64 false).header =
      setSigFields (headerAfterRefresh pkgC1 false)
        (List.replicate 512 0) 0 :=
  (header_hash_signature_restore_amended pkgC1 64 false).2.2.1
    (fun h => Bool.noConfusion h) (by decide)

end Bpak
